import Mathlib

/-!
Shallow embedding of the Banana Clicker progress and economy engine
(`src/src/App.tsx`): the upgrade catalog, the derived per-click gain,
upgrade purchase, slot purchase, diamond exchange, the slot save/load
persistence handlers, and the startup read of persisted records.

JavaScript numbers are modelled as `Int` (all engine arithmetic is on
integer constants); `localStorage` is modelled as explicit stores passed
to the handlers; a persisted string that `JSON.parse` would reject is
modelled by the `Stored.malformed` constructor, and a raised exception by
`Except.error`.
-/

namespace BananaClicker

/-- Catalog entry, mirroring the `Upgrade` interface of the source
(`id` and `cost`; `name`, `description`, `image` and `type` are
presentational and carry no engine behaviour). -/
structure Upgrade where
  id : String
  cost : Int
  deriving Repr, DecidableEq

/-- The fixed catalog `INITIAL_UPGRADES` (ids and costs from the source). -/
def INITIAL_UPGRADES : List Upgrade :=
  [⟨"double_banana", 10⟩, ⟨"soup", 100⟩, ⟨"plus_1488", 5242⟩]

/-- The component's live engine state: the `bananas`, `upgrades`,
`diamonds` and `slotCount` `useState` cells. -/
structure GameState where
  bananas : Int
  upgrades : List String
  diamonds : Int
  slotCount : Int
  deriving Repr, DecidableEq

/-- `const hasDouble = upgrades.includes('double_banana')`. -/
def hasDouble (upgrades : List String) : Bool :=
  upgrades.contains "double_banana"

/-- `const hasSoup = upgrades.includes('soup')`. -/
def hasSoup (upgrades : List String) : Bool :=
  upgrades.contains "soup"

/-- `const has1488 = upgrades.includes('plus_1488')`. -/
def has1488 (upgrades : List String) : Bool :=
  upgrades.contains "plus_1488"

/-- `const multiplier = hasDouble ? 2 : 1`. -/
def multiplier (upgrades : List String) : Int :=
  if hasDouble upgrades then 2 else 1

/-- `const bonus = (hasSoup ? 5 : 0) + (has1488 ? 1488 : 0)`. -/
def bonus (upgrades : List String) : Int :=
  (if hasSoup upgrades then 5 else 0) + (if has1488 upgrades then 1488 else 0)

/-- `const perClick = (1 + bonus) * multiplier`. -/
def perClick (upgrades : List String) : Int :=
  (1 + bonus upgrades) * multiplier upgrades

/-- `handleBananaClick`: `setBananas(prev => prev + perClick)`; the
confetti call is purely visual. -/
def handleBananaClick (s : GameState) : GameState :=
  { s with bananas := s.bananas + perClick s.upgrades }

/-- `buyUpgrade`: guarded by `bananas >= upgrade.cost && !isBought`;
on success subtracts the cost and appends the id, otherwise no state
change (and no alert in the source: the shop button is disabled). -/
def buyUpgrade (u : Upgrade) (s : GameState) : GameState :=
  let isBought := s.upgrades.contains u.id
  if u.cost ≤ s.bananas ∧ isBought = false then
    { s with bananas := s.bananas - u.cost, upgrades := s.upgrades ++ [u.id] }
  else
    s

/-- The user-visible alerts raised by the handlers. -/
inductive Notice where
  | savedToSlot (slotId : Nat)
  | loadedFromSlot (slotId : Nat)
  | emptySlot
  | insufficientFunds
  | exchanged
  | featureUnavailable
  deriving Repr, DecidableEq

/-- `buySlot`: if `diamonds >= 1` then `diamonds -= 1; slotCount += 1`,
else alert insufficient funds. -/
def buySlot (s : GameState) : GameState × Option Notice :=
  if 1 ≤ s.diamonds then
    ({ s with diamonds := s.diamonds - 1, slotCount := s.slotCount + 1 }, none)
  else
    (s, some .insufficientFunds)

/-- `exchangeDiamonds`: if `diamonds >= 1` then `diamonds -= 1;
bananas += 200000000` and alert success, else alert insufficient funds. -/
def exchangeDiamonds (s : GameState) : GameState × Notice :=
  if 1 ≤ s.diamonds then
    ({ s with diamonds := s.diamonds - 1, bananas := s.bananas + 200000000 }, .exchanged)
  else
    (s, .insufficientFunds)

/-- A persisted string: either text that `JSON.parse` accepts (carrying
its parsed value) or malformed text. -/
inductive Stored (α : Type) where
  | valid (value : α)
  | malformed
  deriving Repr, DecidableEq

/-- `JSON.parse`: returns the value on well-formed text, raises on
malformed text. -/
def parseStored {α : Type} : Stored α → Except Unit α
  | .valid v => .ok v
  | .malformed => .error ()

/-- The `SaveData` interface: `bananas`, `upgrades`, `lastSaved`. -/
structure SaveData where
  bananas : Int
  upgrades : List String
  lastSaved : String
  deriving Repr, DecidableEq

/-- The `banana_clicker_slot_<n>` key space of `localStorage`. -/
def SlotStore : Type := Nat → Option (Stored SaveData)

/-- `handleSaveToSlot`: writes `{ bananas, upgrades, lastSaved }` to the
slot key; it calls no state setter, so the engine state is returned as
is; alerts that progress was saved. -/
def handleSaveToSlot (ts : String) (slotId : Nat) :
    GameState × SlotStore → (GameState × SlotStore) × Notice :=
  fun (s, store) =>
    ((s, fun m => if m = slotId then some (.valid ⟨s.bananas, s.upgrades, ts⟩) else store m),
     .savedToSlot slotId)

/-- `handleLoadFromSlot`: if the slot key holds a record, `JSON.parse`
it (raising on malformed text) and set `bananas` and `upgrades` from it;
if the key is absent, alert that the slot is empty with no state
change. -/
def handleLoadFromSlot (s : GameState) (slotId : Nat) (store : SlotStore) :
    Except Unit (GameState × Notice) :=
  match store slotId with
  | some raw =>
      match parseStored raw with
      | .ok d =>
          .ok ({ s with bananas := d.bananas, upgrades := d.upgrades },
               .loadedFromSlot slotId)
      | .error e => .error e
  | none => .ok (s, .emptySlot)

/-- The `banana_clicker_meta` record: `{ diamonds, slotCount }`. -/
structure MetaData where
  diamonds : Int
  slotCount : Int
  deriving Repr, DecidableEq

/-- JavaScript `v || dflt` on a number: `0` is falsy. -/
def orElseNum (v : Int) (dflt : Int) : Int :=
  if v = 0 then dflt else v

/-- The mount-time `useEffect`: read the meta record (`JSON.parse`
raising on malformed text, `d || 0` and `s || 2` defaults), then the
saved banana count (`parseFloat`, which does not raise), then the saved
upgrade list (`JSON.parse` again); absent keys leave the corresponding
state cells untouched. -/
def startupLoad (meta : Option (Stored MetaData)) (savedBananas : Option Int)
    (savedUpgrades : Option (Stored (List String))) (s : GameState) :
    Except Unit GameState :=
  let metaRead : Except Unit GameState :=
    match meta with
    | some raw =>
        match parseStored raw with
        | .ok m =>
            .ok { s with diamonds := orElseNum m.diamonds 0,
                         slotCount := orElseNum m.slotCount 2 }
        | .error e => .error e
    | none => .ok s
  match metaRead with
  | .error e => .error e
  | .ok s1 =>
      let s2 := match savedBananas with
        | some b => { s1 with bananas := b }
        | none => s1
      match savedUpgrades with
      | some raw =>
          match parseStored raw with
          | .ok u => .ok { s2 with upgrades := u }
          | .error e => .error e
      | none => .ok s2

/-- The diamond-shop modal's own state: the purchase-amount slider. -/
structure DiamondShopUI where
  diamondPurchaseAmount : Int
  deriving Repr, DecidableEq

/-- The interactions the diamond-shop modal offers: moving the slider
and pressing the buy button. -/
inductive DiamondShopIntent where
  | setAmount (n : Int)
  | attemptBuy
  deriving Repr, DecidableEq

/-- One diamond-shop interaction: the slider updates only
`diamondPurchaseAmount`; the buy button carries no click handler, so
pressing it changes nothing. -/
def diamondShopStep (p : DiamondShopUI × GameState) (i : DiamondShopIntent) :
    DiamondShopUI × GameState :=
  match i with
  | .setAmount n => ({ diamondPurchaseAmount := n }, p.2)
  | .attemptBuy => p

/-- The real-money purchase path: the buy button has no handler and the
shop statically shows "CANNOT BUY YET", so an attempt leaves the state
unchanged and reports the feature unavailable. -/
def attemptBuyDiamonds (_amount : Int) (s : GameState) : GameState × Notice :=
  (s, .featureUnavailable)

/-- The initial engine state: `bananas 0`, no upgrades, `diamonds 0`,
`slotCount 2`. -/
def initState : GameState := ⟨0, [], 0, 2⟩

/-- The initial slot store: no slot key present. -/
def initStore : SlotStore := fun _ => none

/-- One engine operation, as dispatched by the presentation shell. The
`load` step fires only when the handler returns normally (a raised parse
error aborts the handler before any setter runs). -/
inductive Step : GameState × SlotStore → GameState × SlotStore → Prop where
  | click (s : GameState) (store : SlotStore) :
      Step (s, store) (handleBananaClick s, store)
  | buy (u : Upgrade) (hu : u ∈ INITIAL_UPGRADES) (s : GameState) (store : SlotStore) :
      Step (s, store) (buyUpgrade u s, store)
  | slot (s : GameState) (store : SlotStore) :
      Step (s, store) ((buySlot s).1, store)
  | exch (s : GameState) (store : SlotStore) :
      Step (s, store) ((exchangeDiamonds s).1, store)
  | save (ts : String) (n : Nat) (s : GameState) (store : SlotStore) :
      Step (s, store) ((handleSaveToSlot ts n (s, store)).1)
  | load (n : Nat) (s t : GameState) (store : SlotStore) (msg : Notice)
      (h : handleLoadFromSlot s n store = .ok (t, msg)) :
      Step (s, store) (t, store)
  | buyDiamonds (amount : Int) (s : GameState) (store : SlotStore) :
      Step (s, store) ((attemptBuyDiamonds amount s).1, store)

/-- A state (paired with its slot store) reachable from the fresh-start
configuration by engine operations. -/
def Reachable (p : GameState × SlotStore) : Prop :=
  Relation.ReflTransGen Step (initState, initStore) p

/-- The inductive invariant: both balances non-negative, and every valid
record in the store carries a non-negative banana snapshot. -/
def Inv (p : GameState × SlotStore) : Prop :=
  0 ≤ p.1.bananas ∧ 0 ≤ p.1.diamonds ∧
  ∀ n d, p.2 n = some (Stored.valid d) → 0 ≤ d.bananas

theorem perClick_ge_one (upgrades : List String) : 1 ≤ perClick upgrades := by
  unfold perClick bonus multiplier
  split <;> split <;> split <;> omega

theorem inv_init : Inv (initState, initStore) := by
  refine ⟨le_refl 0, le_refl 0, ?_⟩
  intro n d h
  simp [initStore] at h

theorem inv_step {p q : GameState × SlotStore} (hstep : Step p q) (hinv : Inv p) :
    Inv q := by
  cases hstep with
  | click s store =>
      simp only [Inv, handleBananaClick] at hinv ⊢
      obtain ⟨hb, hd, hst⟩ := hinv
      have := perClick_ge_one s.upgrades
      exact ⟨by omega, hd, hst⟩
  | buy u hu s store =>
      simp only [Inv, buyUpgrade] at hinv ⊢
      obtain ⟨hb, hd, hst⟩ := hinv
      by_cases hc : u.cost ≤ s.bananas ∧ s.upgrades.contains u.id = false
      · simp only [if_pos hc]
        exact ⟨by omega, hd, hst⟩
      · simp only [if_neg hc]
        exact ⟨hb, hd, hst⟩
  | slot s store =>
      simp only [Inv, buySlot] at hinv ⊢
      obtain ⟨hb, hd, hst⟩ := hinv
      by_cases hc : 1 ≤ s.diamonds
      · simp only [if_pos hc]
        exact ⟨hb, by omega, hst⟩
      · simp only [if_neg hc]
        exact ⟨hb, hd, hst⟩
  | exch s store =>
      simp only [Inv, exchangeDiamonds] at hinv ⊢
      obtain ⟨hb, hd, hst⟩ := hinv
      by_cases hc : 1 ≤ s.diamonds
      · simp only [if_pos hc]
        exact ⟨by omega, by omega, hst⟩
      · simp only [if_neg hc]
        exact ⟨hb, hd, hst⟩
  | save ts n s store =>
      simp only [Inv, handleSaveToSlot] at hinv ⊢
      obtain ⟨hb, hd, hst⟩ := hinv
      refine ⟨hb, hd, ?_⟩
      intro m d h
      by_cases hm : m = n
      · simp only [if_pos hm, Option.some.injEq] at h
        cases h
        exact hb
      · simp only [if_neg hm] at h
        exact hst m d h
  | load n s t store msg h =>
      simp only [Inv] at hinv ⊢
      obtain ⟨hb, hd, hst⟩ := hinv
      unfold handleLoadFromSlot at h
      cases hsn : store n with
      | none =>
          rw [hsn] at h
          rw [Except.ok.injEq, Prod.mk.injEq] at h
          obtain ⟨rfl, rfl⟩ := h
          exact ⟨hb, hd, hst⟩
      | some raw =>
          rw [hsn] at h
          cases raw with
          | valid d =>
              simp only [parseStored, Except.ok.injEq, Prod.mk.injEq] at h
              obtain ⟨rfl, rfl⟩ := h
              exact ⟨hst n d hsn, hd, hst⟩
          | malformed =>
              exact Except.noConfusion h
  | buyDiamonds amount s store =>
      simp only [Inv, attemptBuyDiamonds] at hinv ⊢
      exact hinv

theorem reachable_inv {p : GameState × SlotStore} (h : Reachable p) : Inv p := by
  induction h with
  | refl => exact inv_init
  | tail _ hstep ih => exact inv_step hstep ih

/-- C1: the gain per primary action is a pure function of the owned
upgrade ids equal to `(1 + additiveBonus) * multiplierFactor`, where the
multiplier factor is 2 exactly when `double_banana` is owned and the
additive bonus is 5 for `soup` plus 1488 for `plus_1488`; in particular
the five listed ownership sets yield 1, 2, 6, 12 and 2988. -/
theorem C1_perClick_formula (owned : List String) :
    perClick owned =
      (1 + ((if owned.contains "soup" then 5 else 0) +
            (if owned.contains "plus_1488" then 1488 else 0))) *
        (if owned.contains "double_banana" then 2 else 1) ∧
    perClick [] = 1 ∧
    perClick ["double_banana"] = 2 ∧
    perClick ["soup"] = 6 ∧
    perClick ["double_banana", "soup"] = 12 ∧
    perClick ["double_banana", "soup", "plus_1488"] = 2988 :=
  ⟨rfl, by decide, by decide, by decide, by decide, by decide⟩

/-- C2: for a catalog upgrade that is not yet owned and affordable,
`buyUpgrade` subtracts its cost and appends its id; when already owned
or unaffordable it returns the state unchanged (declining without
throwing); it is idempotent, and after a successful double call the cost
is charged once and the id occurs in the owned list exactly once. -/
theorem C2_buyUpgrade_spec (u : Upgrade) (_hu : u ∈ INITIAL_UPGRADES) (s : GameState) :
    (s.upgrades.contains u.id = false → u.cost ≤ s.bananas →
      buyUpgrade u s =
        { s with bananas := s.bananas - u.cost, upgrades := s.upgrades ++ [u.id] }) ∧
    (s.upgrades.contains u.id = true ∨ s.bananas < u.cost → buyUpgrade u s = s) ∧
    buyUpgrade u (buyUpgrade u s) = buyUpgrade u s ∧
    (s.upgrades.contains u.id = false → u.cost ≤ s.bananas →
      (buyUpgrade u (buyUpgrade u s)).upgrades.count u.id = 1 ∧
      (buyUpgrade u (buyUpgrade u s)).bananas = s.bananas - u.cost) := by
  refine ⟨?_, ?_, ?_, ?_⟩
  · intro hown haff
    simp only [buyUpgrade, if_pos (And.intro haff hown)]
  · intro hfail
    simp only [buyUpgrade]
    rw [if_neg]
    rintro ⟨haff, hown⟩
    rcases hfail with hf | hf
    · rw [hf] at hown
      exact Bool.noConfusion hown
    · omega
  · by_cases hc : u.cost ≤ s.bananas ∧ s.upgrades.contains u.id = false
    · have h1 : buyUpgrade u s =
          { s with bananas := s.bananas - u.cost, upgrades := s.upgrades ++ [u.id] } := by
        simp only [buyUpgrade, if_pos hc]
      rw [h1]
      simp only [buyUpgrade]
      rw [if_neg]
      rintro ⟨_, hown2⟩
      simp at hown2
    · simp only [buyUpgrade, if_neg hc]
  · intro hown haff
    have hc : u.cost ≤ s.bananas ∧ s.upgrades.contains u.id = false := ⟨haff, hown⟩
    have h1 : buyUpgrade u s =
        { s with bananas := s.bananas - u.cost, upgrades := s.upgrades ++ [u.id] } := by
      simp only [buyUpgrade, if_pos hc]
    have h2 : buyUpgrade u (buyUpgrade u s) = buyUpgrade u s := by
      rw [h1]
      simp only [buyUpgrade]
      rw [if_neg]
      rintro ⟨_, hown2⟩
      simp at hown2
    have hnotmem : u.id ∉ s.upgrades := by simpa using hown
    rw [h2, h1]
    constructor
    · simp [List.count_eq_zero.mpr hnotmem]
    · rfl

theorem C2_buyUpgrade_spec_witness :
    buyUpgrade ⟨"double_banana", 10⟩ ⟨10, [], 0, 2⟩ = ⟨0, ["double_banana"], 0, 2⟩ := by
  have h := (C2_buyUpgrade_spec ⟨"double_banana", 10⟩ (by decide) ⟨10, [], 0, 2⟩).1
    (by decide) (by decide)
  exact h

/-- C3: saving to a slot and then loading from that same slot restores
exactly the fields captured by the slot record: the loaded state carries
the saved `bananas` and `upgrades`, while `diamonds` and `slotCount`
stay those of the state present at load time. -/
theorem C3_save_load_roundtrip (s t : GameState) (ts : String) (n : Nat)
    (store : SlotStore) :
    ∃ u, handleLoadFromSlot t n (handleSaveToSlot ts n (s, store)).1.2 =
        .ok (u, .loadedFromSlot n) ∧
      u.bananas = s.bananas ∧ u.upgrades = s.upgrades ∧
      u.diamonds = t.diamonds ∧ u.slotCount = t.slotCount := by
  refine ⟨{ t with bananas := s.bananas, upgrades := s.upgrades }, ?_, rfl, rfl, rfl, rfl⟩
  simp [handleLoadFromSlot, handleSaveToSlot, parseStored]

/-- C4: in every reachable configuration both currency balances are
non-negative: every engine operation preserves non-negativity of
`bananas` and `diamonds`. -/
theorem C4_reachable_nonneg (p : GameState × SlotStore) (h : Reachable p) :
    0 ≤ p.1.bananas ∧ 0 ≤ p.1.diamonds :=
  ⟨(reachable_inv h).1, (reachable_inv h).2.1⟩

theorem C4_reachable_nonneg_witness :
    0 ≤ (initState, initStore).1.bananas ∧ 0 ≤ (initState, initStore).1.diamonds :=
  C4_reachable_nonneg (initState, initStore) Relation.ReflTransGen.refl

/-- C5: with at least one diamond, `exchangeDiamonds` subtracts exactly
one diamond and adds exactly 200,000,000 bananas (so from one diamond it
leaves zero); with no diamond it reports insufficient funds and leaves
the state unchanged. -/
theorem C5_exchangeDiamonds_spec (s : GameState) :
    (1 ≤ s.diamonds →
      exchangeDiamonds s =
        ({ s with diamonds := s.diamonds - 1, bananas := s.bananas + 200000000 },
         .exchanged)) ∧
    (s.diamonds < 1 → exchangeDiamonds s = (s, .insufficientFunds)) ∧
    (s.diamonds = 1 →
      (exchangeDiamonds s).1.diamonds = 0 ∧
      (exchangeDiamonds s).1.bananas = s.bananas + 200000000) := by
  refine ⟨?_, ?_, ?_⟩
  · intro h
    simp only [exchangeDiamonds, if_pos h]
  · intro h
    simp only [exchangeDiamonds, if_neg (by omega : ¬ (1 : Int) ≤ s.diamonds)]
  · intro h
    have h1 : (1 : Int) ≤ s.diamonds := by omega
    simp only [exchangeDiamonds, if_pos h1]
    exact ⟨by omega, by trivial⟩

theorem C5_exchangeDiamonds_spec_witness :
    exchangeDiamonds ⟨0, [], 1, 2⟩ = (⟨200000000, [], 0, 2⟩, .exchanged) := by
  have h := (C5_exchangeDiamonds_spec ⟨0, [], 1, 2⟩).1 (by decide)
  exact h

/-- C7: loading from a slot whose record is absent returns the exact
same state (all four fields unchanged) and surfaces the empty-slot
notice. -/
theorem C7_load_empty_slot (s : GameState) (n : Nat) (store : SlotStore)
    (h : store n = none) :
    handleLoadFromSlot s n store = .ok (s, .emptySlot) := by
  simp only [handleLoadFromSlot, h]

theorem C7_load_empty_slot_witness :
    handleLoadFromSlot initState 1 initStore = .ok (initState, .emptySlot) :=
  C7_load_empty_slot initState 1 initStore rfl

/-- C8: with at least one diamond, `buySlot` subtracts exactly one
diamond and adds exactly one slot; with zero diamonds it leaves
`diamonds` and `slotCount` unchanged and reports insufficient funds. -/
theorem C8_buySlot_spec (s : GameState) :
    (1 ≤ s.diamonds →
      buySlot s =
        ({ s with diamonds := s.diamonds - 1, slotCount := s.slotCount + 1 }, none)) ∧
    (s.diamonds = 0 → buySlot s = (s, some .insufficientFunds)) := by
  constructor
  · intro h
    simp only [buySlot, if_pos h]
  · intro h
    simp only [buySlot, if_neg (by omega : ¬ (1 : Int) ≤ s.diamonds)]

theorem C8_buySlot_spec_witness :
    buySlot ⟨0, [], 1, 2⟩ = (⟨0, [], 0, 3⟩, none) ∧
    buySlot initState = (initState, some .insufficientFunds) := by
  constructor
  · have h := (C8_buySlot_spec ⟨0, [], 1, 2⟩).1 (by decide)
    exact h
  · exact (C8_buySlot_spec initState).2 rfl

/-- C9: the real-money diamond purchase path never mutates the engine
state and always reports the feature unavailable; no sequence of
diamond-shop interactions (slider moves and buy attempts) changes any
engine state field. -/
theorem C9_diamond_purchase_inert (amount : Int) (s : GameState)
    (ui : DiamondShopUI) (intents : List DiamondShopIntent) :
    attemptBuyDiamonds amount s = (s, .featureUnavailable) ∧
    (List.foldl diamondShopStep (ui, s) intents).2 = s := by
  refine ⟨rfl, ?_⟩
  induction intents generalizing ui with
  | nil => rfl
  | cons i rest ih =>
      cases i with
      | setAmount n => exact ih ⟨n⟩
      | attemptBuy => exact ih ui

/-- C10: saving to a slot leaves the entire in-memory engine state
unchanged (all four fields keep their values); its only effect is
writing the slot record: the chosen key now holds the snapshot and
every other key of the store is unchanged. -/
theorem C10_save_frame (s : GameState) (store : SlotStore) (ts : String) (n : Nat) :
    (handleSaveToSlot ts n (s, store)).1.1 = s ∧
    (handleSaveToSlot ts n (s, store)).1.1.bananas = s.bananas ∧
    (handleSaveToSlot ts n (s, store)).1.1.upgrades = s.upgrades ∧
    (handleSaveToSlot ts n (s, store)).1.1.diamonds = s.diamonds ∧
    (handleSaveToSlot ts n (s, store)).1.1.slotCount = s.slotCount ∧
    (handleSaveToSlot ts n (s, store)).1.2 n = some (.valid ⟨s.bananas, s.upgrades, ts⟩) ∧
    ∀ m, (handleSaveToSlot ts n (s, store)).1.2 m =
      if m = n then some (.valid ⟨s.bananas, s.upgrades, ts⟩) else store m := by
  refine ⟨rfl, rfl, rfl, rfl, rfl, ?_, ?_⟩
  · simp [handleSaveToSlot]
  · intro m
    rfl

/-- C6 (counterexample): a present but malformed record is not treated
as absent: the startup meta read and the slot load both propagate the
parse error instead of applying defaults. -/
theorem C6_corrupt_record_counterexample :
    startupLoad (some .malformed) none none initState = .error () ∧
    handleLoadFromSlot initState 1 (fun _ => some Stored.malformed) = .error () :=
  ⟨rfl, rfl⟩

/-- C6 (amended): a present but malformed record makes the read path
raise (`JSON.parse` propagates): a malformed meta record or upgrade list
aborts the startup read, and a malformed slot record aborts the slot
load; only an absent record is treated as missing, leaving the defaults
in place. -/
theorem C6_corrupt_record_amended (s : GameState) (b : Option Int)
    (u : Option (Stored (List String))) (m : Option (Stored MetaData))
    (n : Nat) (store : SlotStore) (hm : store n = some Stored.malformed) :
    startupLoad (some .malformed) b u s = .error () ∧
    startupLoad m b (some .malformed) s = .error () ∧
    handleLoadFromSlot s n store = .error () ∧
    startupLoad none none none s = .ok s := by
  refine ⟨rfl, ?_, ?_, rfl⟩
  · cases m with
    | none => rfl
    | some raw =>
        cases raw with
        | valid v => rfl
        | malformed => rfl
  · simp [handleLoadFromSlot, hm, parseStored]

theorem C6_corrupt_record_amended_witness :
    startupLoad (some .malformed) none none initState = .error () ∧
    startupLoad none none (some .malformed) initState = .error () ∧
    handleLoadFromSlot initState 2 (fun _ => some Stored.malformed) = .error () ∧
    startupLoad none none none initState = .ok initState :=
  C6_corrupt_record_amended initState none none none 2
    (fun _ => some Stored.malformed) rfl

end BananaClicker
